import Mathlib

/-
Verification of the LexStat scoring and clustering core
(src/lingpy/compare/lexstat.py) against its specification.

Shallow embedding conventions:
 - segment symbols ("numbers", strings of the form langid.class.context)
   are lists of characters, mirroring Python string operations;
 - score matrices are functions from a pair of row indices to a rational;
   floating point arithmetic of the source is modelled over the rationals,
   with the transcendental numpy log2 kept as an explicit function
   parameter of every definition that uses it;
 - Python dictionary lookups that are wrapped in try/except in the source
   are modelled with Option;
 - collaborators of the core that are not part of the sources under
   verification (the cython aligner calign, the clustering module, the
   Markov generator MCPhon, the ScoreDict container) are modelled from the
   spec where a claim needs them, and are clearly marked as such.
-/

/-- Segment symbols are Python strings, embedded as lists of characters. -/
abbrev Seg := List Char

/-- A dense score matrix, indexed by row and column number. -/
abbrev Mat := Nat → Nat → ℚ

/-- Numeric value of a Python variable holding either False (absent) or a
float: False compares and multiplies like 0. -/
def pyVal (o : Option ℚ) : ℚ := o.getD 0

/-- Python truthiness of a variable holding either False or a float:
falsy exactly when it is False or 0.0. -/
def pyTruthy (o : Option ℚ) : Bool := decide (pyVal o ≠ 0)

/-- The gap symbol of taxon number i (0-based), written str(i+1)+".X.-" in
lexstat.py. -/
def gapChar (i : Nat) : Seg := (Nat.repr (i + 1)).data ++ ['.', 'X', '.', '-']

/-- One entry of the modes keyword of get_scorer: an alignment mode name, a
gap opening penalty and a gap extension scale. -/
structure ModeSpec where
  mode : Seg
  gop : ℚ
  scale : ℚ

/-- The average gap opening penalty over the configured modes, computed in
get_scorer as sum of the second components divided by the list length. -/
def avgGop (modes : List ModeSpec) : ℚ :=
  (modes.map ModeSpec.gop).sum / (modes.length : ℚ)

/-- The data get_scorer reads when synthesizing the correspondence scorer:
the number of taxa, the attested character alphabet of each taxon
(the keys of self.freqs), the accumulated attested and expected
correspondence distributions keyed by taxon-index pair and symbol pair
(absent keys are None), the symbol-to-row hash of the base scorer, and the
base score matrix. -/
structure SynthData where
  n : Nat
  freqs : Nat → List Seg
  corrdist : Nat → Nat → Seg × Seg → Option ℚ
  randist : Nat → Nat → Seg × Seg → Option ℚ
  charDict : Seg → Option Nat
  baseMat : Mat

/-- The scoring parameters of get_scorer used during synthesis: the two
ratio components, the vowel scale, and the modes list. -/
structure SynthCfg where
  ratio0 : ℚ
  ratio1 : ℚ
  vscale : ℚ
  modes : List ModeSpec

/-- Modelled from the spec: lookup in the matrix-backed ScoreDict container
(misc.ScoreDict is not under src), via the symbol-to-row-index hash; a
missing symbol raises, embedded as none. -/
def lookupSD (charDict : Seg → Option Nat) (m : Mat) (a b : Seg) : Option ℚ :=
  match charDict a, charDict b with
  | some x, some y => some (m x y)
  | _, _ => none

/-- The base scorer value self.bscorer[charA,charB] of two symbols. -/
def bscorerVal (D : SynthData) (a b : Seg) : ℚ :=
  (lookupSD D.charDict D.baseMat a b).getD 0

/-- Membership of a character in the string "XYZT_" tested by get_scorer:
in the raw prosodic-string encoding X, Y and Z denote vowel positions,
T tone positions and the underscore word-boundary positions. -/
def vtbChar (c : Char) : Bool :=
  c == 'X' || c == 'Y' || c == 'Z' || c == 'T' || c == '_'

/-- The vowel-scale test of get_scorer, evaluated as Python does:
charA[4] in "XYZT_" and charB[4] in "XYZT_", where indexing past the end
of a symbol raises IndexError (none) and the conjunction short-circuits. -/
def vscaleCond (a b : Seg) : Option Bool :=
  match a.get? 4 with
  | none => none
  | some ca =>
    if vtbChar ca then
      match b.get? 4 with
      | none => none
      | some cb => some (vtbChar cb)
    else some false

/-- The double assignment matrix[idxA][idxB] = v; matrix[idxB][idxA] = v. -/
def matWrite (m : Mat) (x y : Nat) (v : ℚ) : Mat :=
  fun a b => if (a = x ∧ b = y) ∨ (a = y ∧ b = x) then v else m a b

/-- The singleton suppression of get_scorer: if att <= 1 and i != j then
att = False (an absent count compares as 0 <= 1). -/
def suppressAtt (i j : Nat) (att : Option ℚ) : Option ℚ :=
  if pyVal att ≤ 1 ∧ i ≠ j then none else att

/-- The four-way log-odds score of get_scorer; the branches follow the
if/elif chain of the source, whose conditions are Python truthiness tests
on att and exp. -/
def codeScore (log2 : ℚ → ℚ) (att expc : Option ℚ) : ℚ :=
  if pyTruthy att && pyTruthy expc then log2 (pyVal att ^ 2 / pyVal expc ^ 2)
  else if pyTruthy att then log2 (pyVal att ^ 2 / (1 / 100000))
  else if pyTruthy expc then -5
  else -90

/-- The sim component of get_scorer: the base score when the character "-"
occurs in neither symbol, the average gap opening penalty otherwise. -/
def simVal (D : SynthData) (modes : List ModeSpec) (a b : Seg) : ℚ :=
  if '-' ∈ a ++ b then avgGop modes else bscorerVal D a b

/-- The blended score rscore of get_scorer for one symbol pair of the taxon
pair (i, j). -/
def cellRscore (log2 : ℚ → ℚ) (cfg : SynthCfg) (D : SynthData) (i j : Nat)
    (a b : Seg) : ℚ :=
  let att := suppressAtt i j (D.corrdist i j (a, b))
  let expc := D.randist i j (a, b)
  (cfg.ratio0 * codeScore log2 att expc + cfg.ratio1 * simVal D cfg.modes a b)
    / (cfg.ratio0 + cfg.ratio1)

/-- The body of the synthesis loop of get_scorer for one symbol pair: look
both symbols up in the row hash, evaluate the vowel-scale test, and write
the (possibly scaled) rscore into the two mirror cells; any KeyError or
IndexError inside the try block leaves the matrix unchanged. -/
def cellWrite (log2 : ℚ → ℚ) (cfg : SynthCfg) (D : SynthData) (i j : Nat)
    (a b : Seg) (m : Mat) : Mat :=
  match D.charDict a, D.charDict b with
  | some iA, some iB =>
    match vscaleCond a b with
    | some true => matWrite m iA iB (cfg.vscale * cellRscore log2 cfg D i j a b)
    | some false => matWrite m iA iB (cellRscore log2 cfg D i j a b)
    | none => m
  | _, _ => m

/-- The inner loops of the synthesis stage of get_scorer for one taxon pair
(i, j): every attested character of taxon i plus its gap symbol against
every attested character of taxon j plus its gap symbol. -/
def synthPair (log2 : ℚ → ℚ) (cfg : SynthCfg) (D : SynthData) (i j : Nat)
    (m : Mat) : Mat :=
  (D.freqs i ++ [gapChar i]).foldl
    (fun m1 a =>
      (D.freqs j ++ [gapChar j]).foldl (fun m2 b => cellWrite log2 cfg D i j a b m2) m1)
    m

/-- The taxon-pair iteration order of get_scorer: for i over all taxa, for
j over all taxa, restricted to i <= j. -/
def pairsLE (n : Nat) : List (Nat × Nat) :=
  (List.range n).flatMap (fun i => ((List.range n).filter (fun j => i ≤ j)).map (fun j => (i, j)))

/-- The synthesized correspondence scorer matrix of get_scorer: a copy of
the base matrix, overwritten pair by pair by the synthesis loop. -/
def getScorerMatrix (log2 : ℚ → ℚ) (cfg : SynthCfg) (D : SynthData) : Mat :=
  (pairsLE D.n).foldl (fun m ij => synthPair log2 cfg D ij.1 ij.2 m) D.baseMat

/-- The attested count as claim C1 words it: the count with 0 when absent,
suppressed to 0 when the taxa differ and the count is at most 1. -/
def claimAtt (i j : Nat) (raw : ℚ) : ℚ :=
  if i ≠ j ∧ raw ≤ 1 then 0 else raw

/-- The log-odds component s as claim C1 words it, by cases on which of the
attested and expected counts are nonzero. -/
def claimScore (log2 : ℚ → ℚ) (att expc : ℚ) : ℚ :=
  if att ≠ 0 ∧ expc ≠ 0 then log2 (att ^ 2 / expc ^ 2)
  else if att ≠ 0 then log2 (att ^ 2 / (1 / 100000))
  else if expc ≠ 0 then -5
  else -90

/-- The matrix entry for the symbol pair (a, b) of taxon pair (i, j) as
claim C1 states it, for symbols of shape d.c.p whose prosodic-context
characters are pA and pB: rscore = (ratio0 * s + ratio1 * sim) / sum of the
ratio, where sim is the base score unless either symbol is a gap (context
character "-"), in which case sim is the mean gap-open penalty over the
modes list; the entry is multiplied by vscale exactly when both context
characters denote vowel, tone or boundary positions. -/
def c1claimValue (log2 : ℚ → ℚ) (cfg : SynthCfg) (D : SynthData) (i j : Nat)
    (a b : Seg) (pA pB : Char) : ℚ :=
  let att := claimAtt i j (pyVal (D.corrdist i j (a, b)))
  let expc := pyVal (D.randist i j (a, b))
  let sim := if pA = '-' ∨ pB = '-' then avgGop cfg.modes else bscorerVal D a b
  let r := (cfg.ratio0 * claimScore log2 att expc + cfg.ratio1 * sim)
    / (cfg.ratio0 + cfg.ratio1)
  if vtbChar pA && vtbChar pB then cfg.vscale * r else r

/-- Symmetry of a score matrix. -/
def SymmMat (m : Mat) : Prop := ∀ x y, m x y = m y x

/-- The pointwise accumulating update corrdist[key] += v (initializing a
missing key at 0), shared by the attested and random accumulation loops. -/
def updAdd {κ : Type} [DecidableEq κ] (acc : κ → ℚ) (k : κ) (v : ℚ) : κ → ℚ :=
  fun key => if key = k then acc key + v else acc key

/-- The gap relabelling of the markov branch of _get_randist: a bare "-"
becomes "X.-" (elif: only one side is relabelled when both are "-"), and
then both keys receive the taxon-number prefix. -/
def markovRelabel (i j : Nat) (p : Seg × Seg) : Seg × Seg :=
  let q := if p.1 = ['-'] then (['X', '.', '-'], p.2)
           else if p.2 = ['-'] then (p.1, ['X', '.', '-'])
           else p
  ((Nat.repr (i + 1)).data ++ '.' :: q.1, (Nat.repr (j + 1)).data ++ '.' :: q.2)

/-- The gap relabelling of the shuffle branch of _get_randist: a bare "-"
becomes the full gap symbol of the respective taxon. -/
def shuffleRelabel (i j : Nat) (p : Seg × Seg) : Seg × Seg :=
  if p.1 = ['-'] then (gapChar i, p.2)
  else if p.2 = ['-'] then (p.1, gapChar j)
  else p

/-- The accumulation loops of _get_randist for one taxon pair: over the
modes list, every random correspondence count d is renormalized to
d * included_attested / included_random and accumulated into the relabelled
key divided by the length of the modes list. The per-mode random counts
and included counts are the results of the external aligner, passed in as
functions of the mode. -/
def randistCore {κ μ : Type} [DecidableEq κ] (rel : κ → κ) (attIncl nmodes : ℚ)
    (ms : List μ) (corrs : μ → List (κ × ℚ)) (incl : μ → ℚ) (init : κ → ℚ) : κ → ℚ :=
  ms.foldl
    (fun acc m =>
      (corrs m).foldl
        (fun acc2 kv => updAdd acc2 (rel kv.1) (kv.2 * attIncl / incl m / nmodes)) acc)
    init

/-- The expected distribution of the markov branch of _get_randist for the
taxon pair (i, j). -/
def getRandistMarkovPair (i j : Nat) (attIncl : ℚ) (modes : List ModeSpec)
    (corrs : ModeSpec → List ((Seg × Seg) × ℚ)) (incl : ModeSpec → ℚ) : Seg × Seg → ℚ :=
  randistCore (markovRelabel i j) attIncl ((modes.length : ℚ)) modes corrs incl (fun _ => 0)

/-- The expected distribution of the shuffle branch of _get_randist for the
taxon pair (i, j). -/
def getRandistShufflePair (i j : Nat) (attIncl : ℚ) (modes : List ModeSpec)
    (corrs : ModeSpec → List ((Seg × Seg) × ℚ)) (incl : ModeSpec → ℚ) : Seg × Seg → ℚ :=
  randistCore (shuffleRelabel i j) attIncl ((modes.length : ℚ)) modes corrs incl (fun _ => 0)

/-- The per-mode contribution to the expected count as claim C4 words it:
the raw random count times the renormalization divisor
included_attested / included_random, divided by the number of modes. -/
def expContribution (raw attIncl ranIncl nmodes : ℚ) : ℚ :=
  raw * (attIncl / ranIncl) / nmodes

/-- The parameters of _get_corrdist that pick the attested batch and the
threshold handed to the aligner. -/
structure CorrCfg where
  preprocessing : Bool
  preprocessing_threshold : ℚ
  threshold : ℚ

/-- Modelled from the spec: calign.corrdist (the cython aligner collaborator
is not under src). Per the spec, a pair of the batch contributes its aligned
positions exactly when its alignment distance is below the given threshold;
the alignment itself is abstracted into a distance oracle, and the function
returns the included pairs. -/
def corrdistIncluded {π : Type} (dist : π → ℚ) (thr : ℚ) (batch : List π) : List π :=
  batch.filter (fun pr => decide (dist pr < thr))

/-- The batch and threshold that _get_corrdist hands to the aligner
(lexstat.py lines 538-576): with preprocessing the batch is restricted to
the pairs whose ref values agree on both sides and the threshold is the
constant 10.0; without preprocessing the full pair list is passed together
with the preprocessing_threshold keyword — the threshold keyword is never
read. -/
def getCorrdistBatch {π : Type} (cfg : CorrCfg) (refEq : π → Bool) (pairs : List π) :
    List π × ℚ :=
  if cfg.preprocessing then (pairs.filter refEq, 10) else (pairs, cfg.preprocessing_threshold)

/-- The pairs of one taxon pair whose aligned positions are counted into
the attested distribution by _get_corrdist. -/
def getCorrdistIncluded {π : Type} (cfg : CorrCfg) (refEq : π → Bool) (dist : π → ℚ)
    (pairs : List π) : List π :=
  corrdistIncluded dist (getCorrdistBatch cfg refEq pairs).2 (getCorrdistBatch cfg refEq pairs).1

/-- The state _get_corrdist keeps for one taxon pair while looping over the
modes: the stored included count self._included[tA,tB] (None before the
first mode) and the accumulated attested distribution. -/
structure CorrPairState (κ : Type) where
  included : Option ℚ
  dist : κ → ℚ

/-- One iteration of the modes loop of _get_corrdist: the included count of
this mode overwrites the stored one, and the counts of this mode are
accumulated (gap keys relabelled) divided by the length of the modes
list. -/
def corrModeStep {κ μ : Type} [DecidableEq κ] (rel : κ → κ)
    (corrsOf : μ → List (κ × ℚ)) (inclOf : μ → ℚ) (nmodes : ℚ)
    (st : CorrPairState κ) (m : μ) : CorrPairState κ :=
  { included := some (inclOf m),
    dist := (corrsOf m).foldl (fun acc kv => updAdd acc (rel kv.1) (kv.2 / nmodes)) st.dist }

/-- The full modes loop of _get_corrdist for one taxon pair. -/
def getCorrdistPair {κ μ : Type} [DecidableEq κ] (rel : κ → κ)
    (corrsOf : μ → List (κ × ℚ)) (inclOf : μ → ℚ) (nmodes : ℚ)
    (modes : List μ) : CorrPairState κ :=
  modes.foldl (corrModeStep rel corrsOf inclOf nmodes) ⟨none, fun _ => 0⟩

/-- The attributes of a LexStat instance that get_scorer reads and writes:
the correspondence scorer (absent before the first call), the params
attribute (outer Option: the attribute exists; inner Option: it has a
cscorer key), the stamp string, and the stored distributions. -/
structure GSState (α π δ : Type) where
  cscorer : Option α
  params : Option (Option π)
  stamp : List Char
  corrdistStored : Option δ
  randistStored : Option δ

/-- The comparison self.params['cscorer'] == params, false when the params
attribute or its cscorer key is missing. -/
def paramMatch {π : Type} [DecidableEq π] (st : Option (Option π)) (p : π) : Bool :=
  match st with
  | some (some q) => decide (q = p)
  | _ => false

/-- The control flow of get_scorer: return unchanged when a cscorer
attribute exists and force is not set; return unchanged when the stored
parameters equal the requested ones and force is not set; otherwise store
the parameters, extend the stamp, compute the two distributions and
synthesize and store the new scorer (the computations, which consume the
seeded random generator, are passed in as functions). -/
def getScorer {α π δ : Type} [DecidableEq π] (force : Bool) (p : π)
    (stampAdd : List Char) (computeCorr computeRand : π → δ)
    (computeMat : δ → δ → α) (st : GSState α π δ) : GSState α π δ :=
  if st.cscorer.isSome && !force then st
  else if paramMatch st.params p && !force then st
  else
    { cscorer := some (computeMat (computeCorr p) (computeRand p)),
      params := some (some p),
      stamp := st.stamp ++ stampAdd,
      corrdistStored := some (computeCorr p),
      randistStored := some (computeRand p) }

/-- The state of the random-string sampling loop of _get_randist: the
accepted count j, the consecutive-duplicate count k, the number of draws
made so far from the Markov generator, and the accepted strings. -/
structure MCState (α : Type) where
  j : Nat
  k : Nat
  draws : Nat
  words : List α
deriving DecidableEq

/-- One iteration of the sampling loop: draw a string from the generator
(modelled as a stream indexed by the draw counter); if it was already
accepted, count a duplicate; elif fewer than limit duplicates were seen,
accept it; else accept it as well — both accepting branches of the source
are only reachable for a string that is not yet in words. -/
def mcStep {α : Type} [DecidableEq α] (gen : Nat → α) (limit : Nat)
    (st : MCState α) : MCState α :=
  let s := gen st.draws
  if s ∈ st.words then { st with k := st.k + 1, draws := st.draws + 1 }
  else if st.k < limit then
    { j := st.j + 1, k := st.k, draws := st.draws + 1, words := st.words ++ [s] }
  else
    { j := st.j + 1, k := st.k, draws := st.draws + 1, words := st.words ++ [s] }

/-- The while j < rands loop of _get_randist, with explicit fuel: the state
after fuel iterations (or at loop exit, whichever comes first). -/
def mcRun {α : Type} [DecidableEq α] (gen : Nat → α) (limit rands fuel : Nat)
    (st : MCState α) : MCState α :=
  match fuel with
  | 0 => st
  | Nat.succ f => if st.j < rands then mcRun gen limit rands f (mcStep gen limit st) else st

/-- Python max over a list of naturals (the source applies it to nonempty
lists of cluster ids only; on an empty list the source raises, here the
value is 0). -/
def listMax (l : List Nat) : Nat := l.foldr max 0

/-- The accumulation loop of cluster (lexstat.py lines 1483-1492): per
concept, the flat-cluster ids are offset by the running maximum k, the new
k is the maximum of the offset ids, and each word index is assigned its
offset id. The input carries, per concept, the word indices and the raw
flat-cluster ids (one per index); the output carries the indices paired
with the offset ids actually assigned. -/
def clusterRun : Nat → List (List Nat × List Nat) → List (List Nat × List Nat)
  | _, [] => []
  | k, (idxs, c) :: rest =>
    let clusters := c.map (fun x => x + k)
    (idxs, clusters) :: clusterRun (listMax clusters) rest

/-- The cognate-id dictionary clr accumulated by cluster: each concept
contributes the zip of its word indices with its offset ids. -/
def clrOf (concepts : List (List Nat × List Nat)) : List (Nat × Nat) :=
  (clusterRun 0 concepts).flatMap (fun pc => pc.1.zip pc.2)

/-- A concrete attested symbol of taxon 1 (sound class K, ascending
consonant context). -/
def wa : Seg := ['1', '.', 'K', '.', 'C']

/-- A concrete attested symbol of taxon 2 (sound class K, vowel context in
the raw prosodic encoding would be X; V here is the collapsed value). -/
def wb : Seg := ['2', '.', 'K', '.', 'V']

/-- Concrete symbol-to-row hash over the two attested symbols and the two
gap symbols. -/
def wCharDict : Seg → Option Nat := fun c =>
  if c = wa then some 0
  else if c = gapChar 0 then some 1
  else if c = wb then some 2
  else if c = gapChar 1 then some 3
  else none

/-- A concrete modes list: global alignment at gap penalty -2 and local
alignment at gap penalty -1, both with scale 1/2. -/
def wModes : List ModeSpec :=
  [⟨['g', 'l', 'o', 'b', 'a', 'l'], -2, 1/2⟩, ⟨['l', 'o', 'c', 'a', 'l'], -1, 1/2⟩]

/-- Concrete synthesis parameters: ratio (3, 2), vscale 1/2. -/
def wCfg : SynthCfg := ⟨3, 2, 1/2, wModes⟩

/-- A concrete dataset of two taxa with one attested correspondence between
wa and wb. -/
def wData : SynthData :=
  { n := 2,
    freqs := fun i => if i = 0 then [wa] else if i = 1 then [wb] else [],
    corrdist := fun i j p => if i = 0 ∧ j = 1 ∧ p = (wa, wb) then some 4 else none,
    randist := fun i j p => if i = 0 ∧ j = 1 ∧ p = (wa, wb) then some 2 else none,
    charDict := wCharDict,
    baseMat := fun _ _ => 1 }

/-- A concrete dataset of two taxa with empty attested and expected
distributions for every pair: the zero-attested-cognates situation of
claim C5. -/
def w5Data : SynthData :=
  { n := 2,
    freqs := fun i => if i = 0 then [wa] else if i = 1 then [wb] else [],
    corrdist := fun _ _ _ => none,
    randist := fun _ _ _ => none,
    charDict := wCharDict,
    baseMat := fun _ _ => 1 }

/-- The matrix entry for the symbol pair (a, b) of taxon pair (i, j) as
the amended claim C1 states it, for symbols whose characters at string
index 4 are ca and cb and whose gap status is gapA and gapB: rscore =
(ratio0 * s + ratio1 * sim) / sum of the ratio, where att and s are as in
the original claim, sim is the base score unless either symbol is a gap
(then the mean gap-open penalty over the modes), and the entry is
multiplied by vscale exactly when both index-4 characters lie in XYZT_ —
the prosodic-context character for single-digit language ids, the second
dot of the symbol for language ids of two or more digits. -/
def c1amendedValue (log2 : ℚ → ℚ) (cfg : SynthCfg) (D : SynthData) (i j : Nat)
    (a b : Seg) (ca cb : Char) (gapA gapB : Bool) : ℚ :=
  let att := claimAtt i j (pyVal (D.corrdist i j (a, b)))
  let expc := pyVal (D.randist i j (a, b))
  let sim := if gapA || gapB then avgGop cfg.modes else bscorerVal D a b
  let r := (cfg.ratio0 * claimScore log2 att expc + cfg.ratio1 * sim)
    / (cfg.ratio0 + cfg.ratio1)
  if vtbChar ca && vtbChar cb then cfg.vscale * r else r

/-- A symbol of the tenth taxon (language id 10, written with two digits):
sound class K, prosodic context T (a tone position); its character at
string index 4 is the second dot, not the context character. -/
def c10 : Seg := ['1', '0', '.', 'K', '.', 'T']

/-- A ten-taxa dataset with empty attested and expected distributions,
holding the two-digit-language-id symbol c10 for taxon index 9 and a
constant base matrix. -/
def c10Data : SynthData :=
  { n := 10,
    freqs := fun i => if i = 9 then [c10] else [],
    corrdist := fun _ _ _ => none,
    randist := fun _ _ _ => none,
    charDict := fun c => if c = c10 then some 0 else if c = gapChar 9 then some 1 else none,
    baseMat := fun _ _ => 1 }

/-- The suppressed attested value of the source agrees numerically with the
attested count as claim C1 words it. -/
theorem pyVal_suppressAtt (i j : Nat) (att : Option ℚ) :
    pyVal (suppressAtt i j att) = claimAtt i j (pyVal att) := by
  unfold suppressAtt claimAtt
  by_cases h : pyVal att ≤ 1 ∧ i ≠ j
  · rw [if_pos h, if_pos ⟨h.2, h.1⟩]; rfl
  · rw [if_neg h, if_neg (fun hc => h ⟨hc.2, hc.1⟩)]

/-- The truthiness-driven if/elif chain of the source computes the same
log-odds component as the nonzero-count case analysis of the claim. -/
theorem codeScore_claimScore (log2 : ℚ → ℚ) (att expc : Option ℚ) :
    codeScore log2 att expc = claimScore log2 (pyVal att) (pyVal expc) := by
  unfold codeScore claimScore pyTruthy
  by_cases h1 : pyVal att = 0 <;> by_cases h2 : pyVal expc = 0 <;> simp [h1, h2]

/-- The character "-" occurs in a five-character symbol whose first and
third characters are not "-" exactly when its context character is "-". -/
theorem dash_mem_shape (d c p : Char) (hd : d ≠ '-') (hc : c ≠ '-') :
    ('-' ∈ ([d, '.', c, '.', p] : List Char)) ↔ p = '-' := by
  constructor
  · intro h
    rcases List.mem_cons.mp h with h1 | h
    · exact absurd h1.symm hd
    rcases List.mem_cons.mp h with h1 | h
    · exact absurd h1 (by decide)
    rcases List.mem_cons.mp h with h1 | h
    · exact absurd h1.symm hc
    rcases List.mem_cons.mp h with h1 | h
    · exact absurd h1 (by decide)
    rcases List.mem_cons.mp h with h1 | h
    · exact h1.symm
    · exact absurd h (by simp)
  · intro h; subst h; simp

/-- On five-character symbols whose language-id and class characters are
not "-", the sim component of the source is the base score unless a context
character is "-" (a gap symbol), in which case it is the average gap
opening penalty. -/
theorem simVal_shape (D : SynthData) (modes : List ModeSpec)
    (dA cA pA dB cB pB : Char) (hdA : dA ≠ '-') (hcA : cA ≠ '-')
    (hdB : dB ≠ '-') (hcB : cB ≠ '-') :
    simVal D modes [dA, '.', cA, '.', pA] [dB, '.', cB, '.', pB]
      = (if pA = '-' ∨ pB = '-' then avgGop modes
         else bscorerVal D [dA, '.', cA, '.', pA] [dB, '.', cB, '.', pB]) := by
  unfold simVal
  have hm : ('-' ∈ ([dA, '.', cA, '.', pA] ++ [dB, '.', cB, '.', pB] : List Char))
      ↔ (pA = '-' ∨ pB = '-') := by
    rw [List.mem_append, dash_mem_shape _ _ _ hdA hcA, dash_mem_shape _ _ _ hdB hcB]
  by_cases h : pA = '-' ∨ pB = '-'
  · rw [if_pos (hm.mpr h), if_pos h]
  · rw [if_neg (fun hx => h (hm.mp hx)), if_neg h]

/-- The vowel-scale test on two five-character symbols is the conjunction
of the membership tests on their context characters. -/
theorem vscaleCond_shape (dA cA pA dB cB pB : Char) :
    vscaleCond [dA, '.', cA, '.', pA] [dB, '.', cB, '.', pB]
      = some (vtbChar pA && vtbChar pB) := by
  cases h : vtbChar pA <;> simp [vscaleCond, h]

/-- When both symbols are in the row hash and the vowel-scale test
evaluates to t, the synthesis body writes the rscore, scaled by vscale
exactly when t holds, into both mirror cells. -/
theorem cellWrite_value (log2 : ℚ → ℚ) (cfg : SynthCfg) (D : SynthData)
    (i j : Nat) (a b : Seg) (iA iB : Nat) (m : Mat)
    (hiA : D.charDict a = some iA) (hiB : D.charDict b = some iB)
    (t : Bool) (hv : vscaleCond a b = some t) :
    cellWrite log2 cfg D i j a b m iA iB
      = (if t then cfg.vscale * cellRscore log2 cfg D i j a b
         else cellRscore log2 cfg D i j a b)
    ∧ cellWrite log2 cfg D i j a b m iB iA
      = cellWrite log2 cfg D i j a b m iA iB := by
  unfold cellWrite
  rw [hiA, hiB, hv]
  cases t <;> simp [matWrite]

/-- The vowel-scale test evaluates to the conjunction of the membership
tests on the characters at string index 4, whenever both exist. -/
theorem vscaleCond_get (a b : Seg) (ca cb : Char)
    (hga : a.get? 4 = some ca) (hgb : b.get? 4 = some cb) :
    vscaleCond a b = some (vtbChar ca && vtbChar cb) := by
  unfold vscaleCond
  rw [hga, hgb]
  cases h : vtbChar ca <;> simp [h]

/-- For symbols whose gap status is reflected by the Boolean flags (the
character "-" occurs in a symbol exactly when it is a gap symbol), the sim
component of the source is the base score unless either symbol is a gap,
in which case it is the average gap opening penalty. -/
theorem simVal_gapFlag (D : SynthData) (modes : List ModeSpec) (a b : Seg)
    (gapA gapB : Bool) (hma : ('-' ∈ a) ↔ gapA = true)
    (hmb : ('-' ∈ b) ↔ gapB = true) :
    simVal D modes a b
      = (if gapA || gapB then avgGop modes else bscorerVal D a b) := by
  unfold simVal
  cases gapA <;> cases gapB <;> simp_all [List.mem_append]

/-- Supporting lemma for the amended claim C1: on five-character symbols —
single-digit language ids — the character at string index 4 is the
prosodic-context character, and the synthesis body writes exactly the
value the original claim prescribes, context-character vscale condition
included. -/
theorem cellWrite_five_char_claim_value (log2 : ℚ → ℚ) (cfg : SynthCfg)
    (D : SynthData) (i j : Nat) (dA cA pA dB cB pB : Char) (a b : Seg)
    (iA iB : Nat) (m : Mat)
    (ha : a = [dA, '.', cA, '.', pA]) (hb : b = [dB, '.', cB, '.', pB])
    (hdA : dA ≠ '-') (hcA : cA ≠ '-') (hdB : dB ≠ '-') (hcB : cB ≠ '-')
    (hiA : D.charDict a = some iA) (hiB : D.charDict b = some iB) :
    cellWrite log2 cfg D i j a b m iA iB = c1claimValue log2 cfg D i j a b pA pB := by
  subst ha; subst hb
  obtain ⟨h1, _⟩ := cellWrite_value log2 cfg D i j _ _ iA iB m hiA hiB _
    (vscaleCond_shape dA cA pA dB cB pB)
  rw [h1]
  simp only [c1claimValue, cellRscore, codeScore_claimScore, pyVal_suppressAtt,
    simVal_shape D cfg.modes dA cA pA dB cB pB hdA hcA hdB hcB]

/-- Counterexample for claim C1: for the taxon pair (9, 9) — language id
10, written with two digits — and the symbol c10 = 10.K.T, both prosodic-
context characters are T and denote tone positions, so the claim requires
the entry to be multiplied by vscale; but the source tests the character
at string index 4, which for a two-digit language id is the second dot,
so the entry is written unscaled: the value actually written (-268/5)
differs from the value the claim prescribes (vscale times it, -134/5). -/
theorem C1_counterexample :
    cellWrite (fun q => q) wCfg c10Data 9 9 c10 c10 (fun _ _ => 0) 0 0
      ≠ c1claimValue (fun q => q) wCfg c10Data 9 9 c10 c10 'T' 'T' := by
  have hL : cellWrite (fun q => q) wCfg c10Data 9 9 c10 c10 (fun _ _ => 0) 0 0
      = -268/5 := by
    simp +decide [cellWrite, cellRscore, matWrite, vscaleCond, vtbChar, wCfg,
      codeScore, suppressAtt, c10Data, c10, pyTruthy, pyVal, simVal, bscorerVal,
      lookupSD, avgGop, wModes]
    norm_num
  have hR : c1claimValue (fun q => q) wCfg c10Data 9 9 c10 c10 'T' 'T'
      = -134/5 := by
    simp +decide [c1claimValue, claimAtt, claimScore, wCfg, c10Data, c10, pyVal,
      bscorerVal, lookupSD, wModes, vtbChar, avgGop]
    norm_num
  rw [hL, hR]
  norm_num

/-- Claim C1 as amended: for every taxon pair with indices i <= j and every
symbol pair (a, b) from the alphabets plus gap symbols, the synthesis body
of get_scorer sets both mirror cells of (a, b) to rscore = (ratio0 * s +
ratio1 * sim) / (ratio0 + ratio1), where the attested count att (0 when
absent) is suppressed to 0 when i and j differ and att <= 1, s is
log2(att^2/exp^2) when both counts are nonzero, log2(att^2/1e-5) when only
att is nonzero, -5 when only exp is nonzero and -90 when both are zero,
and sim is the base score unless either symbol is a gap, in which case it
is the mean gap-open penalty over the modes list — all as originally
claimed; but the entry is multiplied by vscale exactly when both symbols'
characters at string index 4 lie in XYZT_. For single-digit language ids
that character is the prosodic-context character, so the original claim
holds there; for language ids of two or more digits it is the second dot,
so those entries are never vscaled even at vowel, tone or boundary
positions. -/
theorem C1_amended_synthesis_cell_value (log2 : ℚ → ℚ) (cfg : SynthCfg)
    (D : SynthData) (i j : Nat) (a b : Seg) (ca cb : Char) (gapA gapB : Bool)
    (iA iB : Nat) (m : Mat)
    (hiA : D.charDict a = some iA) (hiB : D.charDict b = some iB)
    (hga : a.get? 4 = some ca) (hgb : b.get? 4 = some cb)
    (hma : ('-' ∈ a) ↔ gapA = true) (hmb : ('-' ∈ b) ↔ gapB = true) :
    cellWrite log2 cfg D i j a b m iA iB
      = c1amendedValue log2 cfg D i j a b ca cb gapA gapB
    ∧ cellWrite log2 cfg D i j a b m iB iA
      = c1amendedValue log2 cfg D i j a b ca cb gapA gapB := by
  obtain ⟨h1, h2⟩ := cellWrite_value log2 cfg D i j a b iA iB m hiA hiB _
    (vscaleCond_get a b ca cb hga hgb)
  have hclaim :
      (if (vtbChar ca && vtbChar cb : Bool) then
        cfg.vscale * cellRscore log2 cfg D i j a b
       else cellRscore log2 cfg D i j a b)
      = c1amendedValue log2 cfg D i j a b ca cb gapA gapB := by
    simp only [c1amendedValue, cellRscore, codeScore_claimScore, pyVal_suppressAtt,
      simVal_gapFlag D cfg.modes a b gapA gapB hma hmb]
  exact ⟨h1.trans hclaim, h2.trans (h1.trans hclaim)⟩

/-- Witness for the amended claim C1: the synthesis body evaluated on a
concrete two-taxon dataset with attested count 4 and expected count 2 for
the symbol pair (wa, wb), whose index-4 characters are the context
characters C and V and which are not gap symbols. -/
theorem C1_amended_synthesis_cell_value_witness :
    (wData.charDict wa = some 0) ∧ (wData.charDict wb = some 2)
    ∧ (wa.get? 4 = some 'C') ∧ (wb.get? 4 = some 'V')
    ∧ (('-' ∈ wa) ↔ false = true) ∧ (('-' ∈ wb) ↔ false = true)
    ∧ (cellWrite (fun q => q) wCfg wData 0 1 wa wb (fun _ _ => 0) 0 2
        = c1amendedValue (fun q => q) wCfg wData 0 1 wa wb 'C' 'V' false false
      ∧ cellWrite (fun q => q) wCfg wData 0 1 wa wb (fun _ _ => 0) 2 0
        = c1amendedValue (fun q => q) wCfg wData 0 1 wa wb 'C' 'V' false false) :=
  ⟨by decide, by decide, by decide, by decide, by decide, by decide,
    C1_amended_synthesis_cell_value (fun q => q) wCfg wData 0 1 wa wb 'C' 'V'
      false false 0 2 (fun _ _ => 0) (by decide) (by decide) (by decide) (by decide)
      (by decide) (by decide)⟩

/-- Writing the same value into both mirror cells preserves symmetry. -/
theorem matWrite_symmMat (m : Mat) (x y : Nat) (v : ℚ) (h : SymmMat m) :
    SymmMat (matWrite m x y v) := by
  intro a b
  unfold matWrite
  by_cases h1 : (a = x ∧ b = y) ∨ (a = y ∧ b = x)
  · rw [if_pos h1, if_pos (by tauto)]
  · rw [if_neg h1, if_neg (by tauto)]
    exact h a b

/-- Each synthesis body application preserves symmetry of the matrix. -/
theorem cellWrite_symmMat (log2 : ℚ → ℚ) (cfg : SynthCfg) (D : SynthData)
    (i j : Nat) (a b : Seg) (m : Mat) (h : SymmMat m) :
    SymmMat (cellWrite log2 cfg D i j a b m) := by
  unfold cellWrite
  split
  · split
    · exact matWrite_symmMat _ _ _ _ h
    · exact matWrite_symmMat _ _ _ _ h
    · exact h
  · exact h

/-- A fold whose step preserves a matrix property preserves it overall. -/
theorem foldl_preserve {γ : Type} (P : Mat → Prop) (f : Mat → γ → Mat)
    (hf : ∀ m g, P m → P (f m g)) :
    ∀ (l : List γ) (m : Mat), P m → P (l.foldl f m) := by
  intro l
  induction l with
  | nil => intro m hm; exact hm
  | cons g rest ih => intro m hm; exact ih _ (hf m g hm)

/-- The whole synthesis loop of get_scorer preserves symmetry. -/
theorem getScorerMatrix_symmMat (log2 : ℚ → ℚ) (cfg : SynthCfg) (D : SynthData)
    (h : SymmMat D.baseMat) : SymmMat (getScorerMatrix log2 cfg D) := by
  unfold getScorerMatrix
  refine foldl_preserve SymmMat _ ?_ _ _ h
  intro m ij hm
  unfold synthPair
  refine foldl_preserve SymmMat _ ?_ _ _ hm
  intro m1 a hm1
  refine foldl_preserve SymmMat _ ?_ _ _ hm1
  intro m2 b hm2
  exact cellWrite_symmMat _ _ _ _ _ _ _ _ hm2

/-- Claim C2: after get_scorer completes, the synthesized correspondence
scorer is symmetric — for every pair of segment symbols (a, b), including
gap symbols, looking up (a, b) returns the same value as looking up
(b, a) — given that the base matrix it starts from is symmetric (lexstat.py
builds bscorer symmetrically), despite the loop iterating only taxon pairs
with i <= j and possibly writing the same cell more than once for
same-language pairs: every write hits both mirror cells with one value. -/
theorem C2_scorer_symmetry (log2 : ℚ → ℚ) (cfg : SynthCfg) (D : SynthData)
    (h : ∀ x y, D.baseMat x y = D.baseMat y x) (a b : Seg) :
    lookupSD D.charDict (getScorerMatrix log2 cfg D) a b
      = lookupSD D.charDict (getScorerMatrix log2 cfg D) b a := by
  have hs := getScorerMatrix_symmMat log2 cfg D h
  unfold lookupSD
  cases D.charDict a <;> cases D.charDict b <;> simp [hs _ _]

/-- Witness for claim C2: symmetry of the synthesized scorer on the
concrete two-taxon dataset, at the symbol pair (wa, wb). -/
theorem C2_scorer_symmetry_witness :
    (∀ x y, wData.baseMat x y = wData.baseMat y x)
    ∧ lookupSD wData.charDict (getScorerMatrix (fun q => q) wCfg wData) wa wb
      = lookupSD wData.charDict (getScorerMatrix (fun q => q) wCfg wData) wb wa :=
  ⟨fun _ _ => rfl, C2_scorer_symmetry (fun q => q) wCfg wData (fun _ _ => rfl) wa wb⟩

/-- Suppression leaves an absent attested count absent. -/
theorem suppressAtt_none (i j : Nat) : suppressAtt i j none = none := by
  unfold suppressAtt; split <;> rfl

/-- With an absent attested count and an absent or zero expected count, the
log-odds component is the sentinel -90. -/
theorem codeScore_sentinel (log2 : ℚ → ℚ) (expc : Option ℚ)
    (hexp : expc = none ∨ expc = some 0) :
    codeScore log2 none expc = -90 := by
  rcases hexp with h | h <;> subst h <;> simp [codeScore, pyTruthy, pyVal]

/-- The gap symbol of taxon number 0 evaluates to the literal "1.X.-". -/
theorem gapChar0 : gapChar 0 = ['1', '.', 'X', '.', '-'] := rfl

/-- The gap symbol of taxon number 1 evaluates to the literal "2.X.-". -/
theorem gapChar1 : gapChar 1 = ['2', '.', 'X', '.', '-'] := rfl

/-- The taxon-pair iteration for two taxa visits (0,0), (0,1), (1,1). -/
theorem pairsLE2 : pairsLE 2 = [(0, 0), (0, 1), (1, 1)] := by decide

/-- Counterexample for claim C5: on a concrete two-taxon dataset whose
attested and expected distributions are empty for every pair (the
zero-attested-cognates situation), the synthesized matrix restricted to the
cross-language pair does not equal the base matrix restricted to it: the
entry of (wa, wb) becomes (3 * (-90) + 2 * 1) / 5 = -268/5 instead of the
base value 1, because the -90 log-odds sentinel is blended in rather than
the base score being left in effect. -/
theorem C5_counterexample :
    lookupSD w5Data.charDict (getScorerMatrix (fun q => q) wCfg w5Data) wa wb
      ≠ lookupSD w5Data.charDict w5Data.baseMat wa wb := by
  have h : getScorerMatrix (fun q => q) wCfg w5Data 0 2 = -268/5 := by
    simp +decide [getScorerMatrix, pairsLE2, synthPair, cellWrite, cellRscore,
      matWrite, vscaleCond, vtbChar, wCfg, codeScore, suppressAtt, w5Data, pyTruthy,
      pyVal, simVal, wa, wb, bscorerVal, lookupSD, wCharDict, avgGop, wModes,
      gapChar0, gapChar1]
    norm_num
  have h0 : w5Data.charDict wa = some 0 := by decide
  have h2 : w5Data.charDict wb = some 2 := by decide
  simp only [lookupSD, h0, h2, h]
  intro hc
  have hq : (-268 / 5 : ℚ) = w5Data.baseMat 0 2 := Option.some.inj hc
  rw [show w5Data.baseMat 0 2 = 1 from rfl] at hq
  norm_num at hq

/-- Claim C5 as amended: for a language pair with zero attested cognates (so
every attested lookup is absent and every expected entry is absent or
zeroed by the vanished renormalization numerator), the synthesis does not
leave the base entries in effect; instead every written entry is the blend
(ratio0 * (-90) + ratio1 * sim) / (ratio0 + ratio1) of the -90 log-odds
sentinel with the sim component, multiplied by vscale exactly when both
symbols' characters at string index 4 lie in XYZT_ (the prosodic-context
characters for single-digit language ids; the second dot for two-digit
language ids, which are then never vscaled). The statement covers symbols
of any language-id width: ca and cb are the index-4 characters. -/
theorem C5_amended_sentinel_blend (log2 : ℚ → ℚ) (cfg : SynthCfg) (D : SynthData)
    (i j : Nat) (a b : Seg) (ca cb : Char) (iA iB : Nat) (m : Mat)
    (hatt : D.corrdist i j (a, b) = none)
    (hexp : D.randist i j (a, b) = none ∨ D.randist i j (a, b) = some 0)
    (hiA : D.charDict a = some iA) (hiB : D.charDict b = some iB)
    (hga : a.get? 4 = some ca) (hgb : b.get? 4 = some cb) :
    cellWrite log2 cfg D i j a b m iA iB
      = (if (vtbChar ca && vtbChar cb : Bool) then
          cfg.vscale * ((cfg.ratio0 * (-90) + cfg.ratio1 * simVal D cfg.modes a b)
            / (cfg.ratio0 + cfg.ratio1))
         else (cfg.ratio0 * (-90) + cfg.ratio1 * simVal D cfg.modes a b)
            / (cfg.ratio0 + cfg.ratio1)) := by
  obtain ⟨h1, _⟩ := cellWrite_value log2 cfg D i j a b iA iB m hiA hiB _
    (vscaleCond_get a b ca cb hga hgb)
  rw [h1]
  have hr : cellRscore log2 cfg D i j a b
      = (cfg.ratio0 * (-90) + cfg.ratio1 * simVal D cfg.modes a b)
        / (cfg.ratio0 + cfg.ratio1) := by
    simp only [cellRscore, hatt, suppressAtt_none, codeScore_sentinel log2 _ hexp]
  rw [hr]

/-- Witness for the amended claim C5: the synthesis body on the concrete
zero-data two-taxon dataset writes the sentinel blend -268/5 for the
symbol pair (wa, wb). -/
theorem C5_amended_sentinel_blend_witness :
    (w5Data.corrdist 0 1 (wa, wb) = none)
    ∧ (w5Data.randist 0 1 (wa, wb) = none ∨ w5Data.randist 0 1 (wa, wb) = some 0)
    ∧ (w5Data.charDict wa = some 0) ∧ (w5Data.charDict wb = some 2)
    ∧ (wa.get? 4 = some 'C') ∧ (wb.get? 4 = some 'V')
    ∧ cellWrite (fun q => q) wCfg w5Data 0 1 wa wb (fun _ _ => 0) 0 2
      = (if (vtbChar 'C' && vtbChar 'V' : Bool) then
          wCfg.vscale * ((wCfg.ratio0 * (-90) + wCfg.ratio1 * simVal w5Data wCfg.modes wa wb)
            / (wCfg.ratio0 + wCfg.ratio1))
         else (wCfg.ratio0 * (-90) + wCfg.ratio1 * simVal w5Data wCfg.modes wa wb)
            / (wCfg.ratio0 + wCfg.ratio1)) :=
  ⟨rfl, Or.inl rfl, by decide, by decide, by decide, by decide,
    C5_amended_sentinel_blend (fun q => q) wCfg w5Data 0 1 wa wb 'C' 'V'
      0 2 (fun _ _ => 0) rfl (Or.inl rfl) (by decide) (by decide) (by decide)
      (by decide)⟩

/-- Evaluating a fold of accumulating updates at one key: the initial value
plus the sum of the added values whose relabelled key matches. -/
theorem updFold_eval {κ : Type} [DecidableEq κ] (rel : κ → κ) (g : κ × ℚ → ℚ) :
    ∀ (l : List (κ × ℚ)) (acc : κ → ℚ) (key : κ),
      (l.foldl (fun acc2 kv => updAdd acc2 (rel kv.1) (g kv)) acc) key
        = acc key + ((l.filter (fun kv => decide (key = rel kv.1))).map g).sum := by
  intro l
  induction l with
  | nil => intro acc key; simp
  | cons kv rest ih =>
    intro acc key
    simp only [List.foldl_cons, List.filter_cons]
    rw [ih]
    by_cases h : key = rel kv.1
    · simp [updAdd, h]
      ring
    · simp [updAdd, h]

/-- Evaluating the full mode loop of the random-distribution accumulation
at one key: the sum over the modes of the per-mode matching contributions. -/
theorem randistCore_eval {κ μ : Type} [DecidableEq κ] (rel : κ → κ)
    (attIncl nmodes : ℚ) :
    ∀ (ms : List μ) (corrs : μ → List (κ × ℚ)) (incl : μ → ℚ) (init : κ → ℚ) (key : κ),
      randistCore rel attIncl nmodes ms corrs incl init key
        = init key + (ms.map (fun m =>
            (((corrs m).filter (fun kv => decide (key = rel kv.1))).map
              (fun kv => kv.2 * attIncl / incl m / nmodes)).sum)).sum := by
  intro ms
  induction ms with
  | nil => intro corrs incl init key; simp [randistCore]
  | cons m rest ih =>
    intro corrs incl init key
    simp only [randistCore, List.foldl_cons, List.map_cons, List.sum_cons]
    rw [show (rest.foldl (fun acc m2 => (corrs m2).foldl
        (fun acc2 kv => updAdd acc2 (rel kv.1) (kv.2 * attIncl / incl m2 / nmodes)) acc)
        ((corrs m).foldl (fun acc2 kv => updAdd acc2 (rel kv.1)
          (kv.2 * attIncl / incl m / nmodes)) init))
      = randistCore rel attIncl nmodes rest corrs incl
        ((corrs m).foldl (fun acc2 kv => updAdd acc2 (rel kv.1)
          (kv.2 * attIncl / incl m / nmodes)) init) from rfl]
    rw [ih]
    rw [updFold_eval rel (fun kv => kv.2 * attIncl / incl m / nmodes) (corrs m) init key]
    ring

/-- Claim C4: for every taxon pair (i, j) and every segment-pair key of the
expected distribution, in both the markov and the shuffle branches of
_get_randist the contribution accumulated per mode is the raw random count
times the renormalization divisor included_attested / included_random,
divided by the number of modes: the accumulated value at any key is the sum
over the modes of these contributions over the matching raw entries. -/
theorem C4_expected_renormalization (i j : Nat) (attIncl : ℚ)
    (modes : List ModeSpec) (corrs : ModeSpec → List ((Seg × Seg) × ℚ))
    (incl : ModeSpec → ℚ) (key : Seg × Seg) :
    getRandistMarkovPair i j attIncl modes corrs incl key
      = (modes.map (fun m =>
          (((corrs m).filter (fun kv => decide (key = markovRelabel i j kv.1))).map
            (fun kv => expContribution kv.2 attIncl (incl m) ((modes.length : ℚ)))).sum)).sum
    ∧ getRandistShufflePair i j attIncl modes corrs incl key
      = (modes.map (fun m =>
          (((corrs m).filter (fun kv => decide (key = shuffleRelabel i j kv.1))).map
            (fun kv => expContribution kv.2 attIncl (incl m) ((modes.length : ℚ)))).sum)).sum := by
  constructor
  · rw [getRandistMarkovPair, randistCore_eval]
    simp only [expContribution, mul_div_assoc, zero_add]
  · rw [getRandistShufflePair, randistCore_eval]
    simp only [expContribution, mul_div_assoc, zero_add]

/-- Claim C3, code-bug evidence: without preprocessing, _get_corrdist hands
the aligner the preprocessing_threshold keyword, not the threshold keyword
that the get_scorer docstring documents as selecting the words for the
attested distribution. On a batch holding a single pair of alignment
distance 1/2, with threshold 0.7 and preprocessing_threshold 0.3, the pair
is excluded from the attested counts although its distance is below the
documented threshold; with preprocessing switched on the batch is instead
restricted to the pairs whose ref ids agree (here modelled by the refEq
flag) at the constant threshold 10. -/
theorem C3_threshold_code_bug :
    getCorrdistIncluded ⟨false, 3/10, 7/10⟩ (fun _ => true) (fun d => d) [(1 : ℚ)/2] = []
    ∧ ((1 : ℚ)/2 < 7/10)
    ∧ (getCorrdistBatch ⟨true, 3/10, 7/10⟩ (fun d => decide (d = 1)) [(1 : ℚ), 2]).1 = [1]
    ∧ (getCorrdistBatch ⟨true, 3/10, 7/10⟩ (fun d => decide (d = 1)) [(1 : ℚ), 2]).2 = 10 := by
  refine ⟨?_, by norm_num, ?_, ?_⟩
  · simp only [getCorrdistIncluded, getCorrdistBatch, if_neg (by decide : ¬False),
      corrdistIncluded]
    norm_num
  · simp only [getCorrdistBatch, if_pos trivial]
    norm_num
  · simp only [getCorrdistBatch, if_pos trivial]

/-- Members of a list of naturals are bounded by its maximum. -/
theorem le_listMax {l : List Nat} {x : Nat} (h : x ∈ l) : x ≤ listMax l := by
  induction l with
  | nil => cases h
  | cons a rest ih =>
    rcases List.mem_cons.mp h with h1 | h1
    · subst h1; exact le_max_left _ _
    · exact le_trans (ih h1) (le_max_right _ _)

/-- Every id assigned by the cluster loop started at running maximum k
exceeds k, provided every raw flat-cluster id is positive and every concept
has at least one id. -/
theorem clusterRun_lb :
    ∀ (l : List (List Nat × List Nat)) (k : Nat),
      (∀ pc ∈ l, ∀ x ∈ pc.2, 1 ≤ x) → (∀ pc ∈ l, pc.2 ≠ []) →
      ∀ (p x : Nat), x ∈ ((clusterRun k l).getD p ([], [])).2 → k < x := by
  intro l
  induction l with
  | nil =>
    intro k _ _ p x hx
    simp [clusterRun] at hx
  | cons pc rest ih =>
    intro k hpos hne p x hx
    rcases pc with ⟨idxs, c⟩
    cases p with
    | zero =>
      simp only [clusterRun, List.getD_cons_zero] at hx
      obtain ⟨e, he, rfl⟩ := List.mem_map.mp hx
      have h1 : 1 ≤ e := hpos _ (List.mem_cons_self _ _) e he
      omega
    | succ q =>
      simp only [clusterRun, List.getD_cons_succ] at hx
      have hk := ih (listMax (c.map (fun x => x + k)))
        (fun pc h => hpos pc (List.mem_cons_of_mem _ h))
        (fun pc h => hne pc (List.mem_cons_of_mem _ h)) q x hx
      have hcne : c ≠ [] := hne _ (List.mem_cons_self _ _)
      obtain ⟨e, he⟩ := List.exists_mem_of_ne_nil c hcne
      have h1 : 1 ≤ e := hpos _ (List.mem_cons_self _ _) e he
      have h2 : e + k ≤ listMax (c.map (fun x => x + k)) :=
        le_listMax (List.mem_map.mpr ⟨e, he, rfl⟩)
      omega

/-- Ids assigned for a later concept are strictly larger than ids assigned
for an earlier concept. -/
theorem clusterRun_blocks_lt :
    ∀ (l : List (List Nat × List Nat)) (k : Nat),
      (∀ pc ∈ l, ∀ x ∈ pc.2, 1 ≤ x) → (∀ pc ∈ l, pc.2 ≠ []) →
      ∀ (p q x y : Nat), p < q →
        x ∈ ((clusterRun k l).getD p ([], [])).2 →
        y ∈ ((clusterRun k l).getD q ([], [])).2 → x < y := by
  intro l
  induction l with
  | nil =>
    intro k _ _ p q x y _ hx _
    simp [clusterRun] at hx
  | cons pc rest ih =>
    intro k hpos hne p q x y hpq hx hy
    rcases pc with ⟨idxs, c⟩
    cases p with
    | zero =>
      cases q with
      | zero => omega
      | succ q1 =>
        simp only [clusterRun, List.getD_cons_zero] at hx
        simp only [clusterRun, List.getD_cons_succ] at hy
        have hxmax : x ≤ listMax (c.map (fun x => x + k)) := le_listMax hx
        have hylb := clusterRun_lb rest (listMax (c.map (fun x => x + k)))
          (fun pc h => hpos pc (List.mem_cons_of_mem _ h))
          (fun pc h => hne pc (List.mem_cons_of_mem _ h)) q1 y hy
        omega
    | succ p1 =>
      cases q with
      | zero => omega
      | succ q1 =>
        simp only [clusterRun, List.getD_cons_succ] at hx hy
        exact ih (listMax (c.map (fun x => x + k)))
          (fun pc h => hpos pc (List.mem_cons_of_mem _ h))
          (fun pc h => hne pc (List.mem_cons_of_mem _ h)) p1 q1 x y (by omega) hx hy

/-- Claim C6: the sets of cognate class ids assigned by the cluster loop to
two distinct concepts are disjoint — each concept's ids are offset by the
running maximum of all previously assigned ids, so ids are globally unique
across the dataset. The flat-clustering collaborator is modelled from the
spec as returning positive class ids, at least one per concept. -/
theorem C6_cluster_ids_disjoint (l : List (List Nat × List Nat))
    (hpos : ∀ pc ∈ l, ∀ x ∈ pc.2, 1 ≤ x) (hne : ∀ pc ∈ l, pc.2 ≠ [])
    (p q : Nat) (hpq : p ≠ q) (x : Nat)
    (hx : x ∈ ((clusterRun 0 l).getD p ([], [])).2) :
    x ∉ ((clusterRun 0 l).getD q ([], [])).2 := by
  intro hy
  rcases Nat.lt_or_ge p q with h | h
  · exact absurd (clusterRun_blocks_lt l 0 hpos hne p q x x h hx hy) (lt_irrefl x)
  · have hqp : q < p := by omega
    exact absurd (clusterRun_blocks_lt l 0 hpos hne q p x x hqp hy hx) (lt_irrefl x)

/-- Witness for claim C6: two concrete concepts, the first clustering its
two words into classes 1 and 2, the second its single word into class 1;
after offsetting, the id 1 of the first block does not occur in the second
block (which holds the id 3). -/
theorem C6_cluster_ids_disjoint_witness :
    (∀ pc ∈ ([([10, 11], [1, 2]), ([12], [1])] : List (List Nat × List Nat)),
      ∀ x ∈ pc.2, 1 ≤ x)
    ∧ (∀ pc ∈ ([([10, 11], [1, 2]), ([12], [1])] : List (List Nat × List Nat)), pc.2 ≠ [])
    ∧ (1 ∈ ((clusterRun 0 [([10, 11], [1, 2]), ([12], [1])]).getD 0 ([], [])).2)
    ∧ (1 ∉ ((clusterRun 0 [([10, 11], [1, 2]), ([12], [1])]).getD 1 ([], [])).2) :=
  ⟨by decide, by decide, by decide,
    C6_cluster_ids_disjoint [([10, 11], [1, 2]), ([12], [1])] (by decide) (by decide)
      0 1 (by decide) 1 (by decide)⟩

/-- Claim C7: calling get_scorer a second time with parameters producing an
identical parameter signature and force not set is a no-op — the call
returns without recomputation, leaving the whole instance state, and in
particular the stored correspondence-scorer matrix, untouched. -/
theorem C7_second_call_noop {α π δ : Type} [DecidableEq π] (p : π)
    (stampAdd : List Char) (computeCorr computeRand : π → δ)
    (computeMat : δ → δ → α) (st : GSState α π δ) (m : α)
    (hcs : st.cscorer = some m) (hp : st.params = some (some p)) :
    getScorer false p stampAdd computeCorr computeRand computeMat st = st
    ∧ (getScorer false p stampAdd computeCorr computeRand computeMat st).cscorer
      = some m := by
  have h1 : (st.cscorer.isSome && !false) = true := by rw [hcs]; rfl
  unfold getScorer
  rw [if_pos h1]
  exact ⟨rfl, hcs⟩

/-- Witness for claim C7: a concrete state holding a scorer and matching
stored parameters is returned unchanged. -/
theorem C7_second_call_noop_witness :
    ((⟨some (1 : ℚ), some (some 5), [], none, none⟩ : GSState ℚ Nat Nat).cscorer = some 1)
    ∧ ((⟨some (1 : ℚ), some (some 5), [], none, none⟩ : GSState ℚ Nat Nat).params
        = some (some 5))
    ∧ (getScorer false 5 [] (fun n => n) (fun n => n) (fun a b => ((a + b : Nat) : ℚ))
        (⟨some (1 : ℚ), some (some 5), [], none, none⟩ : GSState ℚ Nat Nat)
        = ⟨some (1 : ℚ), some (some 5), [], none, none⟩
      ∧ (getScorer false 5 [] (fun n => n) (fun n => n) (fun a b => ((a + b : Nat) : ℚ))
          (⟨some (1 : ℚ), some (some 5), [], none, none⟩ : GSState ℚ Nat Nat)).cscorer
        = some 1) :=
  ⟨rfl, rfl,
    C7_second_call_noop 5 [] (fun n => n) (fun n => n) (fun a b => ((a + b : Nat) : ℚ))
      ⟨some (1 : ℚ), some (some 5), [], none, none⟩ 1 rfl rfl⟩

/-- Claim C9: when a cscorer attribute already exists, get_scorer with
force unset returns early without modifying the scorer, the stored
parameters or the stored correspondence distributions, even when the
supplied parameters differ from the stored ones, because the early return
on the cscorer attribute precedes the parameter comparison. -/
theorem C9_cscorer_guard_frame {α π δ : Type} [DecidableEq π] (p q : π)
    (stampAdd : List Char) (computeCorr computeRand : π → δ)
    (computeMat : δ → δ → α) (st : GSState α π δ) (m : α)
    (hcs : st.cscorer = some m) (hq : st.params = some (some q)) (hne : p ≠ q) :
    getScorer false p stampAdd computeCorr computeRand computeMat st = st := by
  have h1 : (st.cscorer.isSome && !false) = true := by rw [hcs]; rfl
  unfold getScorer
  rw [if_pos h1]

/-- Witness for claim C9: a concrete state holding a scorer built for
parameter 5 is returned unchanged by a call with the different parameter
7. -/
theorem C9_cscorer_guard_frame_witness :
    ((⟨some (2 : ℚ), some (some 5), [], some 3, some 4⟩ : GSState ℚ Nat Nat).cscorer
      = some 2)
    ∧ ((⟨some (2 : ℚ), some (some 5), [], some 3, some 4⟩ : GSState ℚ Nat Nat).params
        = some (some 5))
    ∧ ((7 : Nat) ≠ 5)
    ∧ getScorer false 7 [] (fun n => n) (fun n => n) (fun a b => ((a + b : Nat) : ℚ))
        (⟨some (2 : ℚ), some (some 5), [], some 3, some 4⟩ : GSState ℚ Nat Nat)
      = ⟨some (2 : ℚ), some (some 5), [], some 3, some 4⟩ :=
  ⟨rfl, rfl, by decide,
    C9_cscorer_guard_frame 7 5 [] (fun n => n) (fun n => n)
      (fun a b => ((a + b : Nat) : ℚ))
      ⟨some (2 : ℚ), some (some 5), [], some 3, some 4⟩ 2 rfl rfl (by decide)⟩

/-- Claim C8, code-bug evidence: both accepting branches of the sampling
loop require the drawn string to be new, so a duplicate draw is never
accepted no matter how large the consecutive-duplicate counter k grows.
With a generator that always emits the same string and rands = 2
(limit = 3), the first iteration accepts the string; from then on every
iteration only increments k, the accepted count j stays at 1 < rands
forever, and the while loop never terminates — contradicting the claim
that after limit consecutive duplicates a repeat is accepted so that the
loop cannot run forever. -/
theorem C8_markov_sampling_loop_diverges :
    (mcStep (fun _ => (0 : Nat)) 3 ⟨0, 0, 0, []⟩ = ⟨1, 0, 1, [0]⟩)
    ∧ (∀ n k draws : Nat,
        mcRun (fun _ => (0 : Nat)) 3 2 n ⟨1, k, draws, [0]⟩ = ⟨1, k + n, draws + n, [0]⟩)
    ∧ (∀ n : Nat, (mcRun (fun _ => (0 : Nat)) 3 2 n ⟨0, 0, 0, []⟩).j < 2) := by
  have hstep : mcStep (fun _ => (0 : Nat)) 3 ⟨0, 0, 0, []⟩ = ⟨1, 0, 1, [0]⟩ := by
    simp [mcStep]
  have hdup : ∀ k draws : Nat,
      mcStep (fun _ => (0 : Nat)) 3 ⟨1, k, draws, [0]⟩ = ⟨1, k + 1, draws + 1, [0]⟩ := by
    intro k draws
    simp [mcStep]
  have hrun : ∀ n k draws : Nat,
      mcRun (fun _ => (0 : Nat)) 3 2 n ⟨1, k, draws, [0]⟩ = ⟨1, k + n, draws + n, [0]⟩ := by
    intro n
    induction n with
    | zero => intro k draws; rfl
    | succ n1 ih =>
      intro k draws
      show (if (1 : Nat) < 2 then
          mcRun (fun _ => (0 : Nat)) 3 2 n1 (mcStep (fun _ => (0 : Nat)) 3 ⟨1, k, draws, [0]⟩)
        else ⟨1, k, draws, [0]⟩) = _
      rw [if_pos (by omega), hdup k draws, ih (k + 1) (draws + 1)]
      have e1 : k + 1 + n1 = k + (n1 + 1) := by omega
      have e2 : draws + 1 + n1 = draws + (n1 + 1) := by omega
      rw [e1, e2]
  refine ⟨hstep, hrun, ?_⟩
  intro n
  cases n with
  | zero => show (0 : Nat) < 2; omega
  | succ n1 =>
    show (if (0 : Nat) < 2 then
        mcRun (fun _ => (0 : Nat)) 3 2 n1 (mcStep (fun _ => (0 : Nat)) 3 ⟨0, 0, 0, []⟩)
      else ⟨0, 0, 0, []⟩).j < 2
    rw [if_pos (by omega), hstep, hrun n1 0 1]
    show (1 : Nat) < 2
    omega

/-- After folding the mode loop over a nonempty modes list from any
starting state, the stored included count is the one of the last mode. -/
theorem corrFold_included {κ μ : Type} [DecidableEq κ] (rel : κ → κ)
    (corrsOf : μ → List (κ × ℚ)) (inclOf : μ → ℚ) (nmodes : ℚ) :
    ∀ (ms : List μ) (st : CorrPairState κ) (h : ms ≠ []),
      (ms.foldl (corrModeStep rel corrsOf inclOf nmodes) st).included
        = some (inclOf (ms.getLast h)) := by
  intro ms
  induction ms with
  | nil => intro st h; exact absurd rfl h
  | cons m rest ih =>
    intro st h
    cases rest with
    | nil => rfl
    | cons m2 rest2 =>
      rw [List.foldl_cons,
        ih (corrModeStep rel corrsOf inclOf nmodes st m) (List.cons_ne_nil m2 rest2),
        List.getLast_cons (List.cons_ne_nil m2 rest2)]

/-- Claim C10: the stored included-pair count of a taxon pair is
overwritten on every iteration of the modes loop of _get_corrdist, so the
included_attested value later used as renormalization numerator for the
expected distribution equals the included count of the last mode of the
modes list only — not a total or average across modes. -/
theorem C10_included_last_mode {κ μ : Type} [DecidableEq κ] (rel : κ → κ)
    (corrsOf : μ → List (κ × ℚ)) (inclOf : μ → ℚ) (nmodes : ℚ)
    (modes : List μ) (h : modes ≠ []) :
    (getCorrdistPair rel corrsOf inclOf nmodes modes).included
      = some (inclOf (modes.getLast h)) :=
  corrFold_included rel corrsOf inclOf nmodes modes ⟨none, fun _ => 0⟩ h

/-- Witness for claim C10: with two modes whose included counts are 7 and
9, the stored count after the loop is 9, the one of the last mode. -/
theorem C10_included_last_mode_witness :
    (([7, 9] : List Nat) ≠ [])
    ∧ (getCorrdistPair (fun k : Nat => k) (fun _ : Nat => ([] : List (Nat × ℚ)))
        (fun m : Nat => (m : ℚ)) 2 [7, 9]).included = some 9 :=
  ⟨by decide,
    (C10_included_last_mode (fun k : Nat => k) (fun _ : Nat => ([] : List (Nat × ℚ)))
      (fun m : Nat => (m : ℚ)) 2 [7, 9] (by decide)).trans (by norm_num)⟩
